import Mathlib

/-!
Formal model of the task-tracker client.  The repository holds three
near-duplicate React components:

* variant A: `src/src/App.js`;
* variant B: first component in `src/unnamed/part_000` (lines 1-1103);
* variant C: second component in `src/unnamed/part_000` (lines 1103-2131).

Instants are modelled as natural numbers: milliseconds of the local-clock
timeline (local midnight of 1970-01-01 is 0, a fixed-offset zone, as the JS
`Date` local accessors behave between DST changes).  The JS `Date` library
operations the code calls (`setHours(0,0,0,0)`, `getDay`, `getDate`,
`getFullYear`/`getMonth`, the `(y, m, 1)` constructor) are modelled by
explicit civil-calendar arithmetic on day numbers.  Firestore `Timestamp`
values are the same milliseconds; `estimatedHours`/`totalHours` floats are
modelled as rationals (the operations used on them are sums only).
-/

namespace Progress

/-- Milliseconds of one local day. -/
def msPerDay : Nat := 86400000

/-- Model of `setHours(0, 0, 0, 0)` (variant A) and `getStartOfDate`
(part_000 lines 62-66): local midnight of the day containing instant `t`. -/
def getStartOfDate (t : Nat) : Nat := t / msPerDay * msPerDay

/-- Model of JS `Date.getDay()`: weekday with 0 = Sunday.  Local day 0
(1970-01-01) was a Thursday, hence the shift by 4. -/
def getDay (t : Nat) : Nat := (t / msPerDay + 4) % 7

/-- Model of the JS `Date` local civil calendar: the `(year, month, day)`
triple of a day number (days since 1970-01-01), months 1-12.  This is the
standard civil-from-days computation the `Date` accessors implement. -/
def civilFromDays (z : Nat) : Nat × Nat × Nat :=
  let z2 := z + 719468
  let era := z2 / 146097
  let doe := z2 % 146097
  let yoe := (doe - doe / 1460 + doe / 36524 - doe / 146096) / 365
  let y := yoe + era * 400
  let doy := doe - (365 * yoe + yoe / 4 - yoe / 100)
  let mp := (5 * doy + 2) / 153
  let d := doy - (153 * mp + 2) / 5 + 1
  let m := if mp < 10 then mp + 3 else mp - 9
  (if m ≤ 2 then y + 1 else y, m, d)

/-- Model of the JS `new Date(year, month, day)` constructor (midnight of a
civil date): days since 1970-01-01 of the civil triple, months 1-12.  Valid
for dates from 1970 on, which is all the application handles. -/
def daysFromCivil (y m d : Nat) : Nat :=
  let y2 := if m ≤ 2 then y - 1 else y
  let era := y2 / 400
  let yoe := y2 - era * 400
  let doy := (153 * (if 2 < m then m - 3 else m + 9) + 2) / 5 + d - 1
  let doe := yoe * 365 + yoe / 4 - yoe / 100 + doy
  era * 146097 + doe - 719468

/-- Bool check that the two civil conversions agree on the first day of the
month of day `z`: the instant `daysFromCivil y m 1` is not after `z` and maps
back to the triple `(y, m, 1)`.  Established by computation over the range of
day numbers the running application meets (`calendarCheck`). -/
def monthRoundtrip (z : Nat) : Bool :=
  match civilFromDays z with
  | (y, m, d) =>
    let f := daysFromCivil y m 1
    f ≤ z && civilFromDays f == (y, m, 1) && 1 ≤ d && d ≤ 31 && 1 ≤ m && m ≤ 12

/-- Conjunction of `monthRoundtrip` over the day numbers `lo ≤ z < lo + len`,
evaluated as a balanced tree (the fuel bounds the recursion depth) so the
kernel can check it by computation without deep recursion. -/
def calendarCheck : Nat → Nat → Nat → Bool
  | 0, _, _ => false
  | _ + 1, _, 0 => true
  | _ + 1, lo, 1 => monthRoundtrip lo
  | fuel + 1, lo, len + 2 =>
    calendarCheck fuel lo ((len + 2) / 2) &&
      calendarCheck fuel (lo + (len + 2) / 2) (len + 2 - (len + 2) / 2)

/-- An authenticated user as delivered by the identity provider. -/
structure Principal where
  uid : Nat
  displayName : String
  email : String
deriving Repr, DecidableEq

/-- The hardcoded privileged account (`ADMIN_EMAIL`, App.js line 73; the
literal comparison in part_000 lines 498, 855, 1862). -/
def adminEmail : String := "atharlatif200@gmail.com"

end Progress

namespace Progress.VarB

/-- A task document of variant B (created at part_000 lines 347-354):
`startTime` a Firestore Timestamp (local-clock ms), `completed` the
completion flag, `notified` the already-alerted flag, `timeElapsed` the
persisted stopwatch seconds. -/
structure Task where
  id : Nat
  title : String
  startTime : Nat
  estimatedHours : ℚ
  completed : Bool
  notified : Bool
  timeElapsed : Nat
deriving Repr, DecidableEq

/-- The `todayFilter` predicate of part_000 lines 581-582:
`getStartOfDate(task.startTime.toDate()).getTime() === today.getTime()`
with `today = getStartOfDate(currentTime)`. -/
def todayFilter (now : Nat) (task : Task) : Bool :=
  getStartOfDate task.startTime == getStartOfDate now

/-- Result of `categorizedTasks`: the three lists the component renders. -/
structure Categorized where
  upcomingToday : List Task
  activeToday : List Task
  completedToday : List Task
deriving Repr, DecidableEq

/-- The `categorizedTasks` memo of part_000 lines 563-589.  The `forEach`
partition is order-preserving, so each branch is embedded as a filter:
`completed` when the flag is set, `upcoming` when `startTime > currentTime`,
`active` otherwise; each list is then restricted by `todayFilter`. -/
def categorizedTasks (tasks : List Task) (now : Nat) : Categorized :=
  let completed := tasks.filter (fun t => t.completed)
  let upcoming := tasks.filter (fun t => !t.completed && decide (now < t.startTime))
  let active := tasks.filter (fun t => !t.completed && !decide (now < t.startTime))
  { upcomingToday := upcoming.filter (todayFilter now)
    activeToday := active.filter (todayFilter now)
    completedToday := completed.filter (todayFilter now) }

/-- The alert condition of the sound-effect pass, part_000 lines 198-203:
`!task.completed && !task.notified && task.startTime.toDate() <= currentTime`. -/
def alertCond (now : Nat) (task : Task) : Bool :=
  !task.completed && !task.notified && decide (task.startTime ≤ now)

/-- The alerts produced by one run of the sound-effect pass (part_000 lines
198-214): one `playSound()` per task satisfying `alertCond`, reported here as
the list of those task ids in snapshot order. -/
def soundEffectAlerts (now : Nat) (tasks : List Task) : List Nat :=
  (tasks.filter (alertCond now)).map (fun t => t.id)

/-- The store updates of the same pass: `updateDoc(taskDocRef, {notified:
true})` for each alerted task (part_000 lines 205-212).  Each `updateDoc`
targets the unique document with that id (document ids are unique within a
collection), so the sequence of per-id updates is this conditional map. -/
def soundEffectWrites (now : Nat) (tasks : List Task) : List Task :=
  tasks.map (fun t => if alertCond now t then { t with notified := true } else t)

/-- An entry of the `tasks` array embedded in a variant-B public stats
document (appended at part_000 lines 419-426). -/
structure StatEntry where
  taskId : Nat
  completedAt : Nat
  hours : ℚ
deriving Repr, DecidableEq

/-- An entry of the `pushups` array embedded in a variant-B public stats
document (appended at part_000 lines 477-483). -/
structure PushEntry where
  addedAt : Nat
  count : Nat
deriving Repr, DecidableEq

/-- A variant-B public stats document (created at part_000 lines 123-130). -/
structure StatsDoc where
  displayName : String
  email : String
  tasksCompleted : Nat
  totalHours : ℚ
  tasks : List StatEntry
  pushups : List PushEntry
deriving Repr, DecidableEq

/-- The externally stored data owned by one variant-B principal: the private
task collection, the private per-day pushup documents (date string, count)
and the public stats document. -/
structure Store where
  tasks : List Task
  pushupDocs : List (String × Nat)
  stats : StatsDoc
deriving Repr, DecidableEq

/-- The `handleResetData` of variant B (part_000 lines 497-558): rejected
with an error when there is no user or the email differs from the hardcoded
admin value (lines 498-501); otherwise one batch deletes every private task
and pushup document and zeroes the public stats document.  Returns the
resulting store and the error message, if any. -/
def handleResetData (user : Option Principal) (s : Store) : Store × Option String :=
  match user with
  | none => (s, some "You are not authorized to perform this action.")
  | some u =>
    if u.email != adminEmail then
      (s, some "You are not authorized to perform this action.")
    else
      ({ tasks := []
         pushupDocs := []
         stats := { s.stats with tasksCompleted := 0, totalHours := 0, tasks := [], pushups := [] } },
       none)

/-- The week threshold of variant B's `filteredChartData` (part_000 lines
602-604): `getStartOfDate(new Date(now.setDate(now.getDate() - now.getDay())))`,
midnight of the most recent Sunday.  The `setDate` call also mutates `now`
in place to that Sunday, which `startOfMonth` below observes. -/
def startOfWeek (now : Nat) : Nat := getStartOfDate (now - getDay now * msPerDay)

/-- The month threshold of variant B's `filteredChartData` (part_000 lines
605-607): `getStartOfDate(new Date(now.getFullYear(), now.getMonth(), 1))`.
Because the preceding `setDate` mutated `now` to the most recent Sunday,
the year and month read here are those of that Sunday, not of today. -/
def startOfMonth (now : Nat) : Nat :=
  let sundayDay := now / msPerDay - getDay now
  match civilFromDays sundayDay with
  | (y, m, _) => daysFromCivil y m 1 * msPerDay

/-- The `filterStartDate` switch of part_000 lines 609-622: `week`, `month`
and `today` map to their thresholds, anything else (the `all` default) to
`new Date(0)`. -/
def filterStartDate (filterType : String) (now : Nat) : Nat :=
  if filterType == "week" then startOfWeek now
  else if filterType == "month" then startOfMonth now
  else if filterType == "today" then getStartOfDate now
  else 0

/-- The per-record task filter of part_000 lines 629-631:
`statUser.tasks.filter(task => task.completedAt.toDate() >= filterStartDate)`. -/
def chartTaskKept (filterType : String) (now : Nat) (e : StatEntry) : Bool :=
  decide (filterStartDate filterType now ≤ e.completedAt)

end Progress.VarB

namespace Progress.AppJs

/-- A task document of variant A (created at App.js lines 269-276 with
`status: 'upcoming'`; `completedAt` is added by `completeTask`).  `startTime`
is `none` when the stored value cannot be converted to a date, the case the
`task.startTime?.toDate()` guard of line 431 skips.  Variant A documents
carry no elapsed-seconds field: `elapsedSeconds` is `none` unless some write
creates it (none in this variant ever does). -/
structure Task where
  id : Nat
  title : String
  startTime : Option Nat
  estimatedHours : ℚ
  status : String
  completedAt : Option Nat
  elapsedSeconds : Option Nat
  uid : Nat
deriving Repr, DecidableEq

/-- A variant-A public stats document (created at App.js lines 153-158). -/
structure Stats where
  displayName : String
  email : String
  tasksCompleted : Nat
  totalHours : ℚ
deriving Repr, DecidableEq

/-- Result of the categorizing memo of App.js lines 425-445. -/
structure Categorized where
  upcomingTasks : List Task
  activeTasks : List Task
  completedTasks : List Task
deriving Repr, DecidableEq

/-- The categorizing memo of App.js lines 425-445.  `const now = currentTime`
aliases the state `Date`; `now.setHours(0,0,0,0)` mutates it in place to
local midnight (its value becomes `todayStart`) and `now.setHours(23,59,59,999)`
mutates it again, so from then on `now` holds `todayEnd` and the branch
conditions `taskTime <= now` / `taskTime > now` compare against `todayEnd`,
not against the current instant.  Tasks whose `startTime` fails to convert
are skipped (line 431-432).  The `reduce` with pushes is order-preserving,
so each branch is embedded as a filter. -/
def categorize (tasks : List Task) (currentTime : Nat) : Categorized :=
  let todayStart := getStartOfDate currentTime
  let todayEnd := getStartOfDate currentTime + msPerDay - 1
  let nowRef := todayEnd
  let isToday := fun tt => decide (todayStart ≤ tt) && decide (tt ≤ todayEnd)
  { completedTasks := tasks.filter (fun t =>
      match t.startTime with
      | none => false
      | some _ => t.status == "completed")
    activeTasks := tasks.filter (fun t =>
      match t.startTime with
      | none => false
      | some tt => !(t.status == "completed") && isToday tt && decide (tt ≤ nowRef))
    upcomingTasks := tasks.filter (fun t =>
      match t.startTime with
      | none => false
      | some tt => !(t.status == "completed") && isToday tt && decide (nowRef < tt)) }

/-- State touched by `completeTask`: the task being completed and the
owner's public stats document. -/
structure CompleteState where
  task : Task
  stats : Stats
deriving Repr, DecidableEq

/-- The `completeTask` handler of App.js lines 287-311: one batch sets the
task's status to `completed` with a server completion timestamp (modelled as
`now`) and writes the freshly read stats document back with
`tasksCompleted + 1` and `totalHours + task.estimatedHours` (the `|| 0`
fallbacks are the identity here because both counters are present).  No
branch checks whether the task is already completed. -/
def completeTask (now : Nat) (s : CompleteState) : CompleteState :=
  { task := { s.task with status := "completed", completedAt := some now }
    stats := { s.stats with
      tasksCompleted := s.stats.tasksCompleted + 1
      totalHours := s.stats.totalHours + s.task.estimatedHours } }

/-- A local per-task timer entry of variant A (`taskTimers[taskId]`, App.js
lines 314-357): `hasInterval` records whether the `intervalId` key is
present (`stopTaskTimer` deletes only that key, keeping `elapsed`). -/
structure Timer where
  hasInterval : Bool
  elapsed : Nat
deriving Repr, DecidableEq

/-- Local timer state plus the authoritative store, to make visible which
of the two each timer operation touches.  The store is the signed-in
principal's task collection. -/
structure TimerSession where
  timers : Nat → Option Timer
  storeTasks : List Task

/-- The `startTaskTimer` of App.js lines 314-345: a fresh interval is
started and the entry resumes from `prev[taskId]?.elapsed || 0` (the `|| 0`
is the identity on the stored naturals).  Nothing is written to the store. -/
def startTaskTimer (taskId : Nat) (s : TimerSession) : TimerSession :=
  { s with timers := fun k =>
      if k = taskId then
        some { hasInterval := true
               elapsed := match s.timers taskId with
                 | some t => t.elapsed
                 | none => 0 }
      else s.timers k }

/-- One firing of every live interval callback (App.js lines 321-335): each
entry that still exists and holds an interval gains one second.  Cleared
intervals no longer fire, and the callback's own safety guard skips entries
that were removed. -/
def tick (s : TimerSession) : TimerSession :=
  { s with timers := fun k =>
      match s.timers k with
      | some t => if t.hasInterval then some { t with elapsed := t.elapsed + 1 } else some t
      | none => none }

/-- The `stopTaskTimer` of App.js lines 347-357: the interval is cleared and
the `intervalId` key dropped, keeping `elapsed` in the local entry.  Nothing
is written to the store. -/
def stopTaskTimer (taskId : Nat) (s : TimerSession) : TimerSession :=
  { s with timers := fun k =>
      if k = taskId then
        match s.timers taskId with
        | some t => some { t with hasInterval := false }
        | none => none
      else s.timers k }

/-- An entry of the public pushup history collection (App.js lines 375-380). -/
structure PushHist where
  uid : Nat
  displayName : String
  added : Nat
  createdAt : Nat
deriving Repr, DecidableEq

/-- The externally stored data `handleResetData` touches: the signed-in
principal's private tasks and daily pushup documents, the principal's public
stats document, and the shared public pushup history. -/
structure Store where
  tasks : List Task
  dailyPushups : List (String × Nat)
  stats : Stats
  pushupHistory : List PushHist
deriving Repr, DecidableEq

/-- The `handleResetData` of App.js lines 384-421: guarded only by
`if (!user) return` — no email comparison.  One batch deletes every private
task and daily pushup document of `user`, zeroes the stats counters, and
deletes the user's entries from the public pushup history. -/
def handleResetData (user : Option Principal) (s : Store) : Store :=
  match user with
  | none => s
  | some u =>
    { tasks := []
      dailyPushups := []
      stats := { s.stats with tasksCompleted := 0, totalHours := 0 }
      pushupHistory := s.pushupHistory.filter (fun p => !(p.uid == u.uid)) }

/-- The render guard of the reset button, App.js line 719:
`user && user.email === ADMIN_EMAIL`. -/
def resetButtonVisible (user : Option Principal) : Bool :=
  match user with
  | none => false
  | some u => u.email == adminEmail

/-- The alert condition of the clock effect, App.js line 126:
`task.status === 'upcoming' && task.startTime.toDate() <= now`.  A missing
`startTime` would throw there (no optional chaining); such documents are
outside this model and mapped to `false`. -/
def clockAlertCond (now : Nat) (t : Task) : Bool :=
  t.status == "upcoming" && (match t.startTime with
    | some tt => decide (tt ≤ now)
    | none => false)

/-- The authoritative store list and the locally mirrored snapshot the
component state holds (`tasks`, set by the listener of App.js lines 183-189). -/
structure SyncState where
  storeTasks : List Task
  localTasks : List Task
deriving Repr, DecidableEq

/-- A snapshot delivery of the tasks listener (App.js lines 183-188): the
local list is replaced by the store's current documents. -/
def snapshotDeliver (s : SyncState) : SyncState :=
  { s with localTasks := s.storeTasks }

/-- One run of the clock effect body (App.js lines 119-141): for each local
task satisfying `clockAlertCond` the component plays a sound and rewrites
that task's local `status` to `'active'` via `setTasks` — a local state
update only; no store document is written.  Each per-id `setTasks` map
rewrites the unique local task with that id, so the run collapses to this
conditional map.  Returns the new state and the ids alerted. -/
def clockTick (now : Nat) (s : SyncState) : SyncState × List Nat :=
  ({ s with localTasks := s.localTasks.map (fun t =>
      if clockAlertCond now t then { t with status := "active" } else t) },
   (s.localTasks.filter (clockAlertCond now)).map (fun t => t.id))

/-- The week threshold of the chart memo, App.js line 450:
`new Date(today).setDate(now.getDate() - now.getDay())` where `now` was
mutated to local midnight by line 449, i.e. midnight of the most recent
Sunday. -/
def chartStartOfWeek (now : Nat) : Nat :=
  getStartOfDate now - getDay now * msPerDay

/-- The month threshold of the chart memo, App.js line 451:
`new Date(today).setMonth(now.getMonth(), 1)` — midnight of the first day
of the current month (`now` was mutated only to midnight of the same day,
so its month is today's month). -/
def chartStartOfMonth (now : Nat) : Nat :=
  match civilFromDays (now / msPerDay) with
  | (y, m, _) => daysFromCivil y m 1 * msPerDay

/-- The `filterTasks` predicate of the chart memo, App.js lines 453-462:
tasks without `completedAt` are dropped; otherwise the completion instant is
compared against the threshold of the selected filter, `'all'` keeps
everything, and an unknown filter keeps nothing. -/
def filterTasks (chartFilter : String) (now : Nat) (t : Task) : Bool :=
  match t.completedAt with
  | none => false
  | some ct =>
    if chartFilter == "today" then decide (getStartOfDate now ≤ ct)
    else if chartFilter == "week" then decide (chartStartOfWeek now ≤ ct)
    else if chartFilter == "month" then decide (chartStartOfMonth now ≤ ct)
    else if chartFilter == "all" then true
    else false

/-- The profile-ensuring step of the auth callback (App.js lines 147-160):
when no stats document exists one is created with the principal's names and
zero counters; when one exists nothing at all is written. -/
def ensureUserStats (p : Principal) (existing : Option Stats) : Stats :=
  match existing with
  | some r => r
  | none =>
    { displayName := p.displayName
      email := p.email
      tasksCompleted := 0
      totalHours := 0 }

/-- The local session of variant A as far as sign-out is concerned: the
principal, the per-task timers with their intervals, and the subscriptions
currently held open by the listeners effect. -/
structure Session where
  user : Option Principal
  taskTimers : Nat → Option Timer
  subs : List String

/-- The subscriptions the listeners effect of App.js lines 171-236 holds
open for a given auth state: four when signed in, none otherwise. -/
def listenersFor (user : Option Principal) : List String :=
  match user with
  | none => []
  | some _ => ["tasks", "userStats", "pushupHistory", "dailyPushups"]

/-- The complete sign-out transition of variant A: `logOut` (App.js lines
249-251) only calls `signOut(auth)`; the auth callback then delivers `null`
(line 162, `setUser(null)`) and the listeners effect re-runs, its cleanup
(lines 230-235) unsubscribing all four listeners.  Nothing clears
`taskTimers`: every entry, interval included, survives the transition. -/
def signOutTransition (s : Session) : Session :=
  { user := none
    taskTimers := s.taskTimers
    subs := listenersFor none }

/-- The daily-pushup listener branch of App.js lines 219-227: when today's
document exists its count is used, otherwise the document is created with
`count: 5`. -/
def dailyPushupCount (existing : Option Nat) : Nat :=
  match existing with
  | some c => c
  | none => 5

/-- The `addPenaltyPushups` handler of App.js lines 360-381: the stored and
displayed count becomes `dailyPushups.count + 5`. -/
def addPenaltyPushups (count : Nat) : Nat := count + 5

end Progress.AppJs

namespace Progress.VarC

/-- A task document of variant C (created at part_000 lines 1504-1512):
`startTime` is `none` when the stored value has no `toDate` (the guard at
lines 1330-1331), `elapsedSeconds` the persisted stopwatch value,
`timerStarted` the persisted running marker. -/
structure Task where
  id : Nat
  title : String
  startTime : Option Nat
  estimatedHours : ℚ
  completed : Bool
  notified : Bool
  elapsedSeconds : Nat
  timerStarted : Bool
  completedAt : Option Nat
deriving Repr, DecidableEq

/-- A variant-C public stats document (created at part_000 lines 1228-1236). -/
structure Stats where
  userId : Nat
  displayName : String
  email : String
  tasksCompleted : Nat
  totalHours : ℚ
  pushupsCompleted : Nat
  lastReset : Nat
deriving Repr, DecidableEq

/-- A running-timer entry of variant C (`runningTimers[taskId]`, part_000
lines 1524-1551).  `init` is the `initialElapsed` value captured by the
interval closure; an entry exists exactly while the timer runs
(`stopTaskTimer` removes it). -/
structure Timer where
  init : Nat
  elapsedSeconds : Nat
deriving Repr, DecidableEq

/-- The state one task's timer operations touch: the running entry (if
any), and the task's persisted `elapsedSeconds` and `timerStarted` fields. -/
structure TimerState where
  running : Option Timer
  taskElapsed : Nat
  timerStarted : Bool
deriving Repr, DecidableEq

/-- The `startTaskTimer` of part_000 lines 1524-1551: a no-op when an entry
already exists; otherwise `initialElapsed = task.elapsedSeconds || 0` (the
identity on the stored natural) seeds a new entry and `timerStarted: true`
is written to the task document. -/
def startTaskTimer (s : TimerState) : TimerState :=
  match s.running with
  | some _ => s
  | none =>
    { s with
      running := some { init := s.taskElapsed, elapsedSeconds := s.taskElapsed }
      timerStarted := true }

/-- One firing of the interval callback (part_000 lines 1530-1541): the
entry becomes `(prevTimers[taskId]?.elapsedSeconds || initialElapsed) + 1`;
the JS `||` falls back to the captured `init` when the stored count is 0. -/
def tick (s : TimerState) : TimerState :=
  match s.running with
  | none => s
  | some t =>
    let newElapsed := (if t.elapsedSeconds = 0 then t.init else t.elapsedSeconds) + 1
    { s with running := some { t with elapsedSeconds := newElapsed } }

/-- The `stopTaskTimer` of part_000 lines 1553-1572: a no-op without an
entry; otherwise the interval is cleared, the entry removed, and the final
count flushed to the task document (`elapsedSeconds`, `timerStarted: false`). -/
def stopTaskTimer (s : TimerState) : TimerState :=
  match s.running with
  | none => s
  | some t =>
    { running := none
      taskElapsed := t.elapsedSeconds
      timerStarted := false }

/-- The externally stored data of one variant-C principal. -/
structure Store where
  tasks : List Task
  stats : Stats
deriving Repr, DecidableEq

/-- The `handleResetData` of variant C (part_000 lines 1645-1684): guarded
only by `if (!user) return` — no email comparison.  One batch deletes every
private task and resets the stats document to zero counters with a fresh
`lastReset`; `commitOk` is the outcome of `batch.commit()`, whose failure
leaves the store untouched (the batch is all-or-nothing). -/
def handleResetData (user : Option Principal) (now : Nat) (commitOk : Bool)
    (s : Store) : Store :=
  match user with
  | none => s
  | some _ =>
    if commitOk then
      { tasks := []
        stats := { s.stats with
          tasksCompleted := 0
          totalHours := 0
          pushupsCompleted := 0
          lastReset := now } }
    else s

/-- The local session of variant C as far as sign-out is concerned. -/
structure Session where
  user : Option Principal
  runningTimers : Nat → Option Timer
  subs : List String

/-- The `logOut` of variant C (part_000 lines 1473-1480): every running
timer's interval is cleared and `runningTimers` reset to `{}` before
`signOut(auth)` is awaited; the auth callback then delivers `null` and the
listeners effect cleanup (part_000 lines 1298-1301) closes both
subscriptions. -/
def logOut (_s : Session) : Session :=
  { user := none
    runningTimers := fun _ => none
    subs := [] }

end Progress.VarC

namespace Progress

/-- Sample variant-B task: scheduled at local instant 0 (day 0), never
completed or notified. -/
def bYesterday : VarB.Task :=
  { id := 0, title := "read", startTime := 0, estimatedHours := 1,
    completed := false, notified := false, timeElapsed := 0 }

/-- Sample variant-B task scheduled on local day 2, one second after
midnight. -/
def bToday : VarB.Task :=
  { id := 1, title := "write", startTime := 2 * msPerDay + 1000,
    estimatedHours := 1, completed := false, notified := false,
    timeElapsed := 0 }

/-- Sample variant-A task: status upcoming, scheduled at 20:00 of local
day 0. -/
def aEvening : AppJs.Task :=
  { id := 0, title := "read", startTime := some 72000000, estimatedHours := 1,
    status := "upcoming", completedAt := none, elapsedSeconds := none,
    uid := 0 }

/-- Sample variant-A complete-task state: an active 2-hour task and zeroed
stats counters. -/
def cState : AppJs.CompleteState :=
  { task := { id := 0, title := "read", startTime := some 1000,
              estimatedHours := 2, status := "active", completedAt := none,
              elapsedSeconds := none, uid := 0 }
    stats := { displayName := "A", email := "a@e.x", tasksCompleted := 0,
               totalHours := 0 } }

/-- Sample variant-B task: completed but never notified, start instant 1000. -/
def bDone : VarB.Task :=
  { id := 0, title := "done", startTime := 1000, estimatedHours := 1,
    completed := true, notified := false, timeElapsed := 0 }

/-- Sample variant-A task with status upcoming and start instant 1000. -/
def aUp : AppJs.Task :=
  { id := 0, title := "read", startTime := some 1000, estimatedHours := 1,
    status := "upcoming", completedAt := none, elapsedSeconds := none,
    uid := 0 }

/-- Sample variant-A sync state: `aUp` both in the store and in the local
snapshot. -/
def sync0 : AppJs.SyncState := { storeTasks := [aUp], localTasks := [aUp] }

/-- Sample variant-A timer session: no local timers, one task document that
has no elapsed-seconds field. -/
def aTimer0 : AppJs.TimerSession :=
  { timers := fun _ => none, storeTasks := [aUp] }

/-- A non-privileged principal. -/
def mallory : Principal :=
  { uid := 7, displayName := "Mallory", email := "mallory@example.com" }

/-- Sample variant-A store with one task, one daily pushup document and
non-zero counters. -/
def aStore0 : AppJs.Store :=
  { tasks := [aEvening]
    dailyPushups := [("2025-10-11", 10)]
    stats := { displayName := "Mallory", email := "mallory@example.com",
               tasksCompleted := 3, totalHours := 7 }
    pushupHistory := [] }

/-- Sample variant-B store with one task and non-zero counters. -/
def bStore0 : VarB.Store :=
  { tasks := [bYesterday]
    pushupDocs := []
    stats := { displayName := "B", email := "b@e.x", tasksCompleted := 1,
               totalHours := 1, tasks := [], pushups := [] } }

/-- A stats entry completed at 2025-09-25 10:00 local. -/
def e0Sep : VarB.StatEntry :=
  { taskId := 0, completedAt := 1758794400000, hours := 1 }

/-- Sample variant-A task completed at 2025-10-10 09:30 local, the day
before the witness instant. -/
def aDoneY : AppJs.Task :=
  { id := 3, title := "done", startTime := some 1760088600000,
    estimatedHours := 1, status := "completed",
    completedAt := some 1760088600000, elapsedSeconds := none, uid := 0 }

/-- A stats document whose stored display name is stale. -/
def oldStats : AppJs.Stats :=
  { displayName := "Old Name", email := "p@e.x", tasksCompleted := 3,
    totalHours := 7 }

/-- A principal whose current display name differs from `oldStats`. -/
def pNew : Principal := { uid := 1, displayName := "New Name", email := "p@e.x" }

/-- Sample variant-A session: signed in, one running per-task interval, the
four listener subscriptions open. -/
def sessA0 : AppJs.Session :=
  { user := some pNew
    taskTimers := fun k => if k = 1 then some { hasInterval := true, elapsed := 7 } else none
    subs := AppJs.listenersFor (some pNew) }

/-- C1 counterexample.  The claim asserts that for every task in the
snapshot exactly one of completed/active/upcoming holds, active meaning not
completed with start ≤ now and upcoming not completed with start > now.
Both cited implementations refute it: in variant B a non-completed task
scheduled the day before `now` (here `bYesterday` at instant 0, observed on
day 1) is in none of the three produced groups; in App.js a non-completed
task whose start lies later today (`aEvening`, start 20:00, now 10:00) is
classified active even though start > now, and the upcoming group is empty. -/
theorem c1_counterexample :
    (bYesterday ∈ (VarB.categorizedTasks [bYesterday] (msPerDay + 1000)).upcomingToday ∨
     bYesterday ∈ (VarB.categorizedTasks [bYesterday] (msPerDay + 1000)).activeToday ∨
     bYesterday ∈ (VarB.categorizedTasks [bYesterday] (msPerDay + 1000)).completedToday) = False ∧
    aEvening.status ≠ "completed" ∧
    (∀ tt, aEvening.startTime = some tt → 36000000 < tt) ∧
    aEvening ∈ (AppJs.categorize [aEvening] 36000000).activeTasks ∧
    (AppJs.categorize [aEvening] 36000000).upcomingTasks = [] := by
  refine ⟨?_, by decide, by decide, by decide, by decide⟩
  simp only [eq_iff_iff, iff_false]
  decide

/-- Membership in variant B's completed-today list. -/
theorem memB_completedToday (tasks : List VarB.Task) (now : Nat) (t : VarB.Task) :
    t ∈ (VarB.categorizedTasks tasks now).completedToday ↔
      t ∈ tasks ∧ t.completed = true ∧ VarB.todayFilter now t = true := by
  simp only [VarB.categorizedTasks, List.mem_filter, Bool.and_eq_true]
  tauto

/-- Membership in variant B's active-today list. -/
theorem memB_activeToday (tasks : List VarB.Task) (now : Nat) (t : VarB.Task) :
    t ∈ (VarB.categorizedTasks tasks now).activeToday ↔
      t ∈ tasks ∧ t.completed = false ∧ t.startTime ≤ now ∧
        VarB.todayFilter now t = true := by
  simp only [VarB.categorizedTasks, List.mem_filter, Bool.and_eq_true,
    Bool.not_eq_true', decide_eq_false_iff_not, Nat.not_lt]
  tauto

/-- Membership in variant B's upcoming-today list. -/
theorem memB_upcomingToday (tasks : List VarB.Task) (now : Nat) (t : VarB.Task) :
    t ∈ (VarB.categorizedTasks tasks now).upcomingToday ↔
      t ∈ tasks ∧ t.completed = false ∧ now < t.startTime ∧
        VarB.todayFilter now t = true := by
  simp only [VarB.categorizedTasks, List.mem_filter, Bool.and_eq_true,
    Bool.not_eq_true', decide_eq_true_eq]
  tauto

/-- Variant A's upcoming list is always empty: the `setHours` mutation makes
its branch test `taskTime > todayEnd` under `taskTime <= todayEnd`. -/
theorem memA_upcoming_nil (tasks : List AppJs.Task) (now : Nat) :
    (AppJs.categorize tasks now).upcomingTasks = [] := by
  simp only [AppJs.categorize]
  rw [List.filter_eq_nil_iff]
  intro t _
  cases hst : t.startTime with
  | none => simp
  | some tt =>
    simp only [Bool.and_eq_true, Bool.not_eq_true', decide_eq_true_eq, beq_iff_eq,
      not_and, and_imp]
    intro _ h1 h2
    omega

/-- Membership in variant A's completed list. -/
theorem memA_completedTasks (tasks : List AppJs.Task) (now : Nat) (t : AppJs.Task) :
    t ∈ (AppJs.categorize tasks now).completedTasks ↔
      t ∈ tasks ∧ (∃ tt, t.startTime = some tt) ∧ t.status = "completed" := by
  simp only [AppJs.categorize, List.mem_filter]
  cases hst : t.startTime <;> simp [hst]

/-- Two instants lie on the same local day exactly when the second is
between the first day's midnight and its last millisecond. -/
theorem sameDay_iff (tt now : Nat) :
    (getStartOfDate now ≤ tt ∧ tt ≤ getStartOfDate now + msPerDay - 1) ↔
      tt / msPerDay = now / msPerDay := by
  simp only [getStartOfDate, msPerDay]
  omega

/-- Membership in variant A's active list, for a task with a convertible
start: every non-completed task of the current local day is active, whatever
its start instant within the day. -/
theorem memA_activeTasks (tasks : List AppJs.Task) (now : Nat) (t : AppJs.Task)
    (tt : Nat) (hst : t.startTime = some tt) :
    t ∈ (AppJs.categorize tasks now).activeTasks ↔
      t ∈ tasks ∧ ¬t.status = "completed" ∧ tt / msPerDay = now / msPerDay := by
  have hsd := sameDay_iff tt now
  simp only [AppJs.categorize, List.mem_filter, hst, Bool.and_eq_true,
    Bool.not_eq_true', decide_eq_true_eq, beq_eq_false_iff_ne, ne_eq]
  tauto

/-- A task without a convertible start is in no variant-A list. -/
theorem memA_none (tasks : List AppJs.Task) (now : Nat) (t : AppJs.Task)
    (hst : t.startTime = none) :
    t ∉ (AppJs.categorize tasks now).completedTasks ∧
    t ∉ (AppJs.categorize tasks now).activeTasks ∧
    t ∉ (AppJs.categorize tasks now).upcomingTasks := by
  refine ⟨?_, ?_, ?_⟩ <;> simp [AppJs.categorize, List.mem_filter, hst]

/-- C1 (amended).  Group membership is a pure function of the completion
flag, the scheduled start and `now` (each membership below is characterized
by exactly those data), but the trichotomy claimed holds only restricted to
tasks scheduled on the current local day.  In variant B a same-day task is
in exactly one group — completed iff its flag is set, active iff not
completed and start ≤ now, upcoming iff not completed and start > now —
while a task of any other day is in none of the produced groups.  In App.js
the in-place `setHours` mutation of `now` makes the active test compare
against the end of today, so every non-completed task of the current day is
active (a start later today included), completed tasks of any day are
completed, and the upcoming group is always empty. -/
theorem c1_partition_amended :
    (∀ (tasks : List VarB.Task) (now : Nat) (t : VarB.Task), t ∈ tasks →
      ((t ∈ (VarB.categorizedTasks tasks now).completedToday ↔
         (t.completed = true ∧ VarB.todayFilter now t = true)) ∧
       (t ∈ (VarB.categorizedTasks tasks now).activeToday ↔
         (t.completed = false ∧ t.startTime ≤ now ∧ VarB.todayFilter now t = true)) ∧
       (t ∈ (VarB.categorizedTasks tasks now).upcomingToday ↔
         (t.completed = false ∧ now < t.startTime ∧ VarB.todayFilter now t = true)))) ∧
    (∀ (tasks : List VarB.Task) (now : Nat) (t : VarB.Task), t ∈ tasks →
      VarB.todayFilter now t = true →
        ((t ∈ (VarB.categorizedTasks tasks now).completedToday ∧
          t ∉ (VarB.categorizedTasks tasks now).activeToday ∧
          t ∉ (VarB.categorizedTasks tasks now).upcomingToday) ∨
         (t ∉ (VarB.categorizedTasks tasks now).completedToday ∧
          t ∈ (VarB.categorizedTasks tasks now).activeToday ∧
          t ∉ (VarB.categorizedTasks tasks now).upcomingToday) ∨
         (t ∉ (VarB.categorizedTasks tasks now).completedToday ∧
          t ∉ (VarB.categorizedTasks tasks now).activeToday ∧
          t ∈ (VarB.categorizedTasks tasks now).upcomingToday))) ∧
    (∀ (tasks : List AppJs.Task) (now : Nat),
      (AppJs.categorize tasks now).upcomingTasks = [] ∧
      (∀ (t : AppJs.Task), t ∈ tasks →
        ((t ∈ (AppJs.categorize tasks now).completedTasks ↔
           ((∃ tt, t.startTime = some tt) ∧ t.status = "completed")) ∧
         (∀ tt, t.startTime = some tt →
           (t ∈ (AppJs.categorize tasks now).activeTasks ↔
             (¬t.status = "completed" ∧ tt / msPerDay = now / msPerDay)))))) := by
  refine ⟨?_, ?_, ?_⟩
  · intro tasks now t ht
    refine ⟨?_, ?_, ?_⟩
    · rw [memB_completedToday]; tauto
    · rw [memB_activeToday]; tauto
    · rw [memB_upcomingToday]; tauto
  · intro tasks now t ht htf
    rw [memB_completedToday, memB_activeToday, memB_upcomingToday]
    rcases hc : t.completed with _ | _
    · rcases le_or_lt t.startTime now with hle | hlt
      · refine Or.inr (Or.inl ?_)
        simp [ht, htf, hc, hle, Nat.not_lt.mpr hle]
      · refine Or.inr (Or.inr ?_)
        simp [ht, htf, hc, hlt, Nat.le_of_lt, Nat.not_le.mpr hlt]
    · refine Or.inl ?_
      simp [ht, htf, hc]
  · intro tasks now
    refine ⟨memA_upcoming_nil tasks now, ?_⟩
    intro t ht
    refine ⟨?_, ?_⟩
    · rw [memA_completedTasks]; tauto
    · intro tt hst
      rw [memA_activeTasks tasks now t tt hst]; tauto

/-- C1 witness: the amended partition at a concrete input — a variant-B
task scheduled one second after midnight of local day 2, observed the same
day at 00:00:50, lands in the active group and only there. -/
theorem c1_partition_amended_witness :
    bToday ∈ (VarB.categorizedTasks [bToday] (2 * msPerDay + 50000)).activeToday ∧
    bToday ∉ (VarB.categorizedTasks [bToday] (2 * msPerDay + 50000)).completedToday ∧
    bToday ∉ (VarB.categorizedTasks [bToday] (2 * msPerDay + 50000)).upcomingToday := by
  have h := (c1_partition_amended.2.1 [bToday] (2 * msPerDay + 50000) bToday
    (by decide) (by decide))
  rcases h with ⟨h1, _, _⟩ | ⟨h1, h2, h3⟩ | ⟨_, _, h3⟩
  · exact absurd h1 (by decide)
  · exact ⟨h2, h1, h3⟩
  · exact absurd h3 (by decide)

/-- C2: evaluation of `completeTask` at the failing input.  Starting from
zero counters and a 2-hour task, the first invocation credits the owner with
one task and two hours; invoking the handler again on the now-completed task
increments the counters a second time (to 2 tasks and 4 hours), because no
branch of App.js lines 287-311 checks the task's status — contradicting the
spec's requirement that a second completion be a no-op or rejected, never a
double increment. -/
theorem c2_completeTask_double_increment :
    (AppJs.completeTask 5000 cState).task.status = "completed" ∧
    (AppJs.completeTask 5000 cState).stats.tasksCompleted = 1 ∧
    (AppJs.completeTask 5000 cState).stats.totalHours = 2 ∧
    (AppJs.completeTask 9000 (AppJs.completeTask 5000 cState)).stats.tasksCompleted = 2 ∧
    (AppJs.completeTask 9000 (AppJs.completeTask 5000 cState)).stats.totalHours = 4 := by
  refine ⟨rfl, rfl, ?_, rfl, ?_⟩ <;> norm_num [AppJs.completeTask, cState]

/-- Every alerted id comes from a task of the snapshot. -/
theorem mem_soundEffectAlerts_sub (now : Nat) (tasks : List VarB.Task) (x : Nat)
    (hx : x ∈ VarB.soundEffectAlerts now tasks) :
    x ∈ tasks.map (fun t => t.id) := by
  simp only [VarB.soundEffectAlerts, List.mem_map, List.mem_filter] at hx
  obtain ⟨u, ⟨hu, _⟩, rfl⟩ := hx
  exact List.mem_map_of_mem _ hu

/-- One step of the alert list. -/
theorem soundEffectAlerts_cons (now : Nat) (h : VarB.Task) (tl : List VarB.Task) :
    VarB.soundEffectAlerts now (h :: tl) =
      (if VarB.alertCond now h then [h.id] else []) ++ VarB.soundEffectAlerts now tl := by
  simp only [VarB.soundEffectAlerts, List.filter_cons]
  split <;> simp

/-- On a snapshot with distinct document ids, one pass of the variant-B
sound effect alerts each task exactly once when its condition holds and
never otherwise. -/
theorem soundEffectAlerts_count (now : Nat) (tasks : List VarB.Task)
    (hnd : (tasks.map (fun t => t.id)).Nodup) (t : VarB.Task) (ht : t ∈ tasks) :
    (VarB.soundEffectAlerts now tasks).count t.id =
      if VarB.alertCond now t then 1 else 0 := by
  induction tasks with
  | nil => cases ht
  | cons h tl ih =>
    simp only [List.map_cons, List.nodup_cons] at hnd
    rw [soundEffectAlerts_cons, List.count_append]
    rcases List.mem_cons.mp ht with rfl | htl
    · have hzero : (VarB.soundEffectAlerts now tl).count t.id = 0 := by
        rw [List.count_eq_zero]
        intro hc
        exact hnd.1 (mem_soundEffectAlerts_sub now tl t.id hc)
      rw [hzero]
      by_cases hc : VarB.alertCond now t = true <;> simp [hc]
    · have hne : h.id ≠ t.id := by
        intro he
        exact hnd.1 (he ▸ List.mem_map_of_mem _ htl)
      rw [ih hnd.2 htl]
      by_cases hc : VarB.alertCond now h = true <;>
        simp [hc, List.count_cons, hne, Ne.symm hne]

/-- The pass writes `notified: true` for every alerted task. -/
theorem soundEffectWrites_marks (now : Nat) (tasks : List VarB.Task)
    (t : VarB.Task) (ht : t ∈ tasks) (hc : VarB.alertCond now t = true) :
    { t with notified := true } ∈ VarB.soundEffectWrites now tasks := by
  simp only [VarB.soundEffectWrites, List.mem_map]
  exact ⟨t, ht, by rw [if_pos hc]⟩

/-- After the pass has written the store, no later pass alerts a task the
first one alerted, at any later evaluation instant. -/
theorem soundEffectAlerts_once (now now2 : Nat) (tasks : List VarB.Task)
    (hnd : (tasks.map (fun t => t.id)).Nodup) (t : VarB.Task) (ht : t ∈ tasks)
    (hc : VarB.alertCond now t = true) :
    t.id ∉ VarB.soundEffectAlerts now2 (VarB.soundEffectWrites now tasks) := by
  intro hmem
  simp only [VarB.soundEffectAlerts, VarB.soundEffectWrites, List.mem_map,
    List.mem_filter] at hmem
  obtain ⟨u, ⟨hu, hcu⟩, hid⟩ := hmem
  obtain ⟨x, hx, hxu⟩ := hu
  subst hxu
  have hxid : x.id = t.id := by
    by_cases hcx : VarB.alertCond now x = true <;> simp [hcx] at hid <;> exact hid
  have hxt : x = t := List.inj_on_of_nodup_map hnd hx ht hxid
  subst hxt
  rw [if_pos hc] at hcu
  simp [VarB.alertCond] at hcu

/-- A task alerted by the variant-A clock pass is not alerted by a second
pass over the resulting local state (its local status is now `active`). -/
theorem clockTick_once (now now2 : Nat) (s : AppJs.SyncState)
    (hnd : (s.localTasks.map (fun x => x.id)).Nodup) (t : AppJs.Task)
    (ht : t ∈ s.localTasks) (hc : AppJs.clockAlertCond now t = true) :
    t.id ∉ (AppJs.clockTick now2 (AppJs.clockTick now s).1).2 := by
  intro hmem
  simp only [AppJs.clockTick, List.mem_map, List.mem_filter] at hmem
  obtain ⟨u, ⟨hu, hcu⟩, hid⟩ := hmem
  obtain ⟨x, hx, hxu⟩ := hu
  subst hxu
  have hxid : x.id = t.id := by
    by_cases hcx : AppJs.clockAlertCond now x = true <;> simp [hcx] at hid <;> exact hid
  have hxt : x = t := List.inj_on_of_nodup_map hnd hx ht hxid
  subst hxt
  rw [if_pos hc] at hcu
  simp [AppJs.clockAlertCond] at hcu

/-- After a snapshot delivery replaces the local list with the store's
documents, a still-qualifying stored task alerts again. -/
theorem clockTick_realert (now2 : Nat) (s : AppJs.SyncState) (t : AppJs.Task)
    (ht : t ∈ s.storeTasks) (hc : AppJs.clockAlertCond now2 t = true) :
    t.id ∈ (AppJs.clockTick now2 (AppJs.snapshotDeliver s)).2 := by
  simp only [AppJs.clockTick, AppJs.snapshotDeliver, List.mem_map, List.mem_filter]
  exact ⟨t, ⟨ht, hc⟩, rfl⟩

/-- C3 counterexample.  Two concrete refutations: in variant B a task whose
completion flag is set but whose alerted flag is false and whose start lies
in the past (`bDone`) gets no alert, though the claim's precondition (start
≤ now, alerted false) promises exactly one; in App.js the pass writes
nothing to the store — it only rewrites the local snapshot — so after the
subscription redelivers the store's documents the same task (`aUp`) is
alerted a second time. -/
theorem c3_counterexample :
    VarB.soundEffectAlerts 5000 [bDone] = [] ∧
    bDone.notified = false ∧ bDone.startTime ≤ 5000 ∧
    (AppJs.clockTick 5000 sync0).1.storeTasks = sync0.storeTasks ∧
    (AppJs.clockTick 5000 sync0).2 = [0] ∧
    (AppJs.clockTick 6000 (AppJs.snapshotDeliver (AppJs.clockTick 5000 sync0).1)).2 = [0] := by
  refine ⟨?_, rfl, by decide, rfl, ?_, ?_⟩ <;> decide

/-- C3 (amended).  For every task that is not completed, has the alerted
flag false and start ≤ now, one variant-B pass over a snapshot with
distinct ids produces exactly one alert and writes `notified: true` to the
store, after which no later pass over the written store alerts that task
again, at any instant.  The App.js pass never writes the store: rewriting
the local status to `active` prevents re-alerts across local recomputations
(second conjunct), but once a snapshot delivery replaces the local list
with the store's documents a still-qualifying task alerts again (third
conjunct). -/
theorem c3_alert_amended :
    (∀ (now : Nat) (tasks : List VarB.Task) (t : VarB.Task),
      (tasks.map (fun x => x.id)).Nodup → t ∈ tasks →
      t.completed = false → t.notified = false → t.startTime ≤ now →
        ((VarB.soundEffectAlerts now tasks).count t.id = 1 ∧
         { t with notified := true } ∈ VarB.soundEffectWrites now tasks ∧
         ∀ now2, t.id ∉ VarB.soundEffectAlerts now2 (VarB.soundEffectWrites now tasks))) ∧
    (∀ (now : Nat) (s : AppJs.SyncState),
      (AppJs.clockTick now s).1.storeTasks = s.storeTasks ∧
      (∀ (t : AppJs.Task), t ∈ s.localTasks →
        AppJs.clockAlertCond now t = true →
        (s.localTasks.map (fun x => x.id)).Nodup →
          ∀ now2, t.id ∉ (AppJs.clockTick now2 (AppJs.clockTick now s).1).2)) ∧
    (∀ (now2 : Nat) (s : AppJs.SyncState) (t : AppJs.Task), t ∈ s.storeTasks →
      AppJs.clockAlertCond now2 t = true →
        t.id ∈ (AppJs.clockTick now2 (AppJs.snapshotDeliver s)).2) := by
  refine ⟨?_, ?_, ?_⟩
  · intro now tasks t hnd ht hcomp hnot hstart
    have hc : VarB.alertCond now t = true := by
      simp [VarB.alertCond, hcomp, hnot, hstart]
    refine ⟨?_, soundEffectWrites_marks now tasks t ht hc, ?_⟩
    · rw [soundEffectAlerts_count now tasks hnd t ht, if_pos hc]
    · intro now2
      exact soundEffectAlerts_once now now2 tasks hnd t ht hc
  · intro now s
    exact ⟨rfl, fun t ht hc hnd now2 => clockTick_once now now2 s hnd t ht hc⟩
  · intro now2 s t ht hc
    exact clockTick_realert now2 s t ht hc

/-- C3 witness: the amended statement at a concrete input — one pass at
instant 5000 over the single-task snapshot `[bYesterday]` alerts id 0
exactly once, and after its write a pass at instant 9000 alerts nothing. -/
theorem c3_alert_amended_witness :
    (VarB.soundEffectAlerts 5000 [bYesterday]).count 0 = 1 ∧
    0 ∉ VarB.soundEffectAlerts 9000 (VarB.soundEffectWrites 5000 [bYesterday]) := by
  have h := c3_alert_amended.1 5000 [bYesterday] bYesterday (by decide) (by decide)
    rfl rfl (by decide)
  exact ⟨h.1, h.2.2 9000⟩

/-- Ticking a started variant-C timer `n` times counts up exactly `n`
seconds from the seeded value (the `|| initialElapsed` fallback in the
interval callback never changes the count). -/
theorem varC_tick_iterate (e0 n te : Nat) (b : Bool) :
    VarC.tick^[n] ({ running := some { init := e0, elapsedSeconds := e0 }, taskElapsed := te, timerStarted := b } : VarC.TimerState) =
      ({ running := some { init := e0, elapsedSeconds := e0 + n }, taskElapsed := te, timerStarted := b } : VarC.TimerState) := by
  induction n with
  | zero => rfl
  | succ n ih =>
    rw [Function.iterate_succ_apply', ih]
    have h : (if e0 + n = 0 then e0 else e0 + n) + 1 = e0 + (n + 1) := by
      split <;> omega
    simp only [VarC.tick]
    rw [h]

/-- Ticking the variant-A timers `n` times adds `n` to an entry whose
interval is live. -/
theorem appJs_tick_iterate (n : Nat) (s : AppJs.TimerSession) (taskId e : Nat)
    (h : s.timers taskId = some { hasInterval := true, elapsed := e }) :
    (AppJs.tick^[n] s).timers taskId = some { hasInterval := true, elapsed := e + n } := by
  induction n generalizing s e with
  | zero => simpa using h
  | succ n ih =>
    rw [Function.iterate_succ_apply]
    have hstep : (AppJs.tick s).timers taskId = some { hasInterval := true, elapsed := e + 1 } := by
      simp [AppJs.tick, h]
    rw [ih (AppJs.tick s) (e + 1) hstep]
    rw [show e + 1 + n = e + (n + 1) from by omega]

/-- C4 counterexample.  In App.js, Start at a fresh task followed by three
ticks and Stop leaves three accumulated seconds only in the local
`taskTimers` entry: the store is untouched and the task document still has
no elapsed-seconds value, though the claim requires Stop to flush the
accumulated value into the Task's persisted elapsed-seconds field. -/
theorem c4_counterexample :
    (AppJs.stopTaskTimer 0 (AppJs.tick (AppJs.tick (AppJs.tick
        (AppJs.startTaskTimer 0 aTimer0))))).timers 0 =
      some { hasInterval := false, elapsed := 3 } ∧
    (AppJs.stopTaskTimer 0 (AppJs.tick (AppJs.tick (AppJs.tick
        (AppJs.startTaskTimer 0 aTimer0))))).storeTasks = [aUp] ∧
    aUp.elapsedSeconds = none := by
  refine ⟨rfl, rfl, rfl⟩

/-- C4 (amended).  With the initial persisted value `e0`, variant C's Start
then Stop after exactly `n` ticks flushes `e0 + n` into the task's persisted
elapsed-seconds field (so `n` exactly when starting from 0), and a further
Start resumes from that flushed value; in App.js Start/tick/Stop never write
the store — after `n` ticks Stop leaves the count `n` in the local entry
only, and a further Start resumes from that local value rather than 0. -/
theorem c4_timer_amended :
    (∀ (e0 n : Nat) (b : Bool),
      VarC.stopTaskTimer (VarC.tick^[n] (VarC.startTaskTimer
          { running := none, taskElapsed := e0, timerStarted := b })) =
        { running := none, taskElapsed := e0 + n, timerStarted := false }) ∧
    (∀ (e0 n : Nat) (b : Bool),
      VarC.startTaskTimer (VarC.stopTaskTimer (VarC.tick^[n] (VarC.startTaskTimer
          { running := none, taskElapsed := e0, timerStarted := b }))) =
        { running := some { init := e0 + n, elapsedSeconds := e0 + n },
          taskElapsed := e0 + n, timerStarted := true }) ∧
    (∀ (taskId : Nat) (s : AppJs.TimerSession),
      (AppJs.startTaskTimer taskId s).storeTasks = s.storeTasks ∧
      (AppJs.tick s).storeTasks = s.storeTasks ∧
      (AppJs.stopTaskTimer taskId s).storeTasks = s.storeTasks) ∧
    (∀ (taskId n : Nat) (s : AppJs.TimerSession), s.timers taskId = none →
      (AppJs.stopTaskTimer taskId (AppJs.tick^[n] (AppJs.startTaskTimer taskId s))).timers taskId =
        some { hasInterval := false, elapsed := n } ∧
      (AppJs.startTaskTimer taskId (AppJs.stopTaskTimer taskId
          (AppJs.tick^[n] (AppJs.startTaskTimer taskId s)))).timers taskId =
        some { hasInterval := true, elapsed := n }) := by
  have hstartC : ∀ (e0 : Nat) (b : Bool),
      VarC.startTaskTimer { running := none, taskElapsed := e0, timerStarted := b } =
        ({ running := some { init := e0, elapsedSeconds := e0 },
           taskElapsed := e0, timerStarted := true } : VarC.TimerState) :=
    fun e0 b => rfl
  refine ⟨?_, ?_, ?_, ?_⟩
  · intro e0 n b
    rw [hstartC, varC_tick_iterate]
    rfl
  · intro e0 n b
    rw [hstartC, varC_tick_iterate]
    rfl
  · intro taskId s
    exact ⟨rfl, rfl, rfl⟩
  · intro taskId n s h
    have hstart : (AppJs.startTaskTimer taskId s).timers taskId =
        some { hasInterval := true, elapsed := 0 } := by
      simp [AppJs.startTaskTimer, h]
    have hrun := appJs_tick_iterate n (AppJs.startTaskTimer taskId s) taskId 0 hstart
    rw [Nat.zero_add] at hrun
    set s2 := AppJs.tick^[n] (AppJs.startTaskTimer taskId s) with hs2
    have hstop : (AppJs.stopTaskTimer taskId s2).timers taskId =
        some { hasInterval := false, elapsed := n } := by
      simp [AppJs.stopTaskTimer, hrun]
    refine ⟨hstop, ?_⟩
    set s3 := AppJs.stopTaskTimer taskId s2 with hs3
    simp [AppJs.startTaskTimer, hstop]

/-- C4 witness: the amended statement at a concrete input — task id 0 of
`aTimer0`, two ticks: Stop leaves the local entry at 2 seconds without an
interval, and a further Start resumes at 2 with a live interval. -/
theorem c4_timer_amended_witness :
    (AppJs.stopTaskTimer 0 (AppJs.tick^[2] (AppJs.startTaskTimer 0 aTimer0))).timers 0 =
      some { hasInterval := false, elapsed := 2 } ∧
    (AppJs.startTaskTimer 0 (AppJs.stopTaskTimer 0
        (AppJs.tick^[2] (AppJs.startTaskTimer 0 aTimer0)))).timers 0 =
      some { hasInterval := true, elapsed := 2 } :=
  c4_timer_amended.2.2.2 0 2 aTimer0 rfl

/-- C5: reset postcondition.  For any signed-in principal, any task
collection and any counter values, a successful reset leaves the task
collection empty and the StatsRecord counters at zero, in both variants
that the claim cites; and in variant C — where the commit outcome is
modelled — the single batch is all-or-nothing: whatever the outcome, the
store is either untouched or fully reset. -/
theorem c5_reset_postcondition :
    (∀ (u : Principal) (now : Nat) (s : VarC.Store),
      (VarC.handleResetData (some u) now true s).tasks = [] ∧
      (VarC.handleResetData (some u) now true s).stats.tasksCompleted = 0 ∧
      (VarC.handleResetData (some u) now true s).stats.totalHours = 0 ∧
      (VarC.handleResetData (some u) now true s).stats.pushupsCompleted = 0) ∧
    (∀ (u : Option Principal) (now : Nat) (ok : Bool) (s : VarC.Store),
      VarC.handleResetData u now ok s = s ∨
        ((VarC.handleResetData u now ok s).tasks = [] ∧
         (VarC.handleResetData u now ok s).stats.tasksCompleted = 0 ∧
         (VarC.handleResetData u now ok s).stats.totalHours = 0)) ∧
    (∀ (u : Principal) (s : AppJs.Store),
      (AppJs.handleResetData (some u) s).tasks = [] ∧
      (AppJs.handleResetData (some u) s).dailyPushups = [] ∧
      (AppJs.handleResetData (some u) s).stats.tasksCompleted = 0 ∧
      (AppJs.handleResetData (some u) s).stats.totalHours = 0) := by
  refine ⟨?_, ?_, ?_⟩
  · intro u now s
    exact ⟨rfl, rfl, rfl, rfl⟩
  · intro u now ok s
    cases u with
    | none => exact Or.inl rfl
    | some p =>
      cases ok with
      | false => exact Or.inl rfl
      | true => exact Or.inr ⟨rfl, rfl, rfl⟩
  · intro u s
    exact ⟨rfl, rfl, rfl, rfl⟩

/-- C6 counterexample.  The claim says that an invocation by a principal
whose email differs from the privileged value performs no task deletion and
no StatsRecord zeroing; invoking App.js's `handleResetData` as the
non-privileged `mallory` on a store with one task and non-zero counters
deletes the task collection and zeroes the counters — the handler checks
only that a user is signed in, the email guard exists solely around the
button rendering. -/
theorem c6_counterexample :
    mallory.email ≠ adminEmail ∧
    aStore0.tasks ≠ [] ∧ aStore0.stats.tasksCompleted = 3 ∧
    (AppJs.handleResetData (some mallory) aStore0).tasks = [] ∧
    (AppJs.handleResetData (some mallory) aStore0).stats.tasksCompleted = 0 ∧
    (AppJs.handleResetData (some mallory) aStore0).stats.totalHours = 0 := by
  refine ⟨by decide, by decide, rfl, rfl, rfl, rfl⟩

/-- C6 (amended).  Only variant B enforces the privileged-email comparison
inside the handler: there an invocation with any other email (or without a
user) changes nothing and surfaces an error.  In App.js the hardcoded-email
comparison only controls whether the reset button is rendered; the handler
itself, invoked with any signed-in principal, performs the reset. -/
theorem c6_reset_authorization_amended :
    (∀ (u : Principal) (s : VarB.Store), u.email ≠ adminEmail →
      (VarB.handleResetData (some u) s).1 = s ∧
      (VarB.handleResetData (some u) s).2 =
        some "You are not authorized to perform this action.") ∧
    (∀ (s : VarB.Store), (VarB.handleResetData none s).1 = s) ∧
    (∀ (u : Option Principal),
      AppJs.resetButtonVisible u = true ↔ ∃ p, u = some p ∧ p.email = adminEmail) ∧
    (∀ (u : Principal) (s : AppJs.Store),
      (AppJs.handleResetData (some u) s).tasks = [] ∧
      (AppJs.handleResetData (some u) s).stats.tasksCompleted = 0) := by
  refine ⟨?_, fun s => rfl, ?_, fun u s => ⟨rfl, rfl⟩⟩
  · intro u s hne
    simp [VarB.handleResetData, bne_iff_ne, hne]
  · intro u
    cases u with
    | none => simp [AppJs.resetButtonVisible]
    | some p => simp [AppJs.resetButtonVisible]

/-- C6 witness: the amended guard at a concrete input — variant B's handler
invoked by `mallory` leaves the concrete store `bStore0` unchanged. -/
theorem c6_reset_authorization_amended_witness :
    (VarB.handleResetData (some mallory) bStore0).1 = bStore0 :=
  (c6_reset_authorization_amended.1 mallory bStore0 (by decide)).1

/-- Soundness of the balanced range check: every day in the range passes
`monthRoundtrip`. -/
theorem calendarCheck_sound (fuel lo len : Nat) (h : calendarCheck fuel lo len = true) :
    ∀ i, i < len → monthRoundtrip (lo + i) = true := by
  induction fuel generalizing lo len with
  | zero => simp [calendarCheck] at h
  | succ fuel ih =>
    intro i hi
    match len, hi with
    | 1, hi =>
      rw [calendarCheck] at h
      obtain rfl : i = 0 := by omega
      simpa using h
    | len + 2, hi =>
      rw [calendarCheck, Bool.and_eq_true] at h
      by_cases h2 : i < (len + 2) / 2
      · exact ih lo ((len + 2) / 2) h.1 i h2
      · have := ih (lo + (len + 2) / 2) (len + 2 - (len + 2) / 2) h.2
          (i - (len + 2) / 2) (by omega)
        rw [show lo + (len + 2) / 2 + (i - (len + 2) / 2) = lo + i from by omega] at this
        exact this

/-- The calendar roundtrip holds on days 20000-22299 (mid-2024 to early
2031), the window in which the application runs; checked by kernel
computation. -/
theorem calendarCheck_window : calendarCheck 20 20000 2300 = true := by decide

/-- The month roundtrip at any day of the checked window. -/
theorem monthRoundtrip_window (z : Nat) (h1 : 20000 ≤ z) (h2 : z < 22300) :
    monthRoundtrip z = true := by
  have := calendarCheck_sound 20 20000 2300 calendarCheck_window (z - 20000) (by omega)
  rwa [show 20000 + (z - 20000) = z from by omega] at this

/-- The variant-A month threshold is a midnight not after `now` whose civil
date is the first of the current month, for any `now` in the checked
window. -/
theorem chartStartOfMonth_facts (now : Nat)
    (h1 : 20000 * msPerDay ≤ now) (h2 : now < 22300 * msPerDay) :
    AppJs.chartStartOfMonth now % msPerDay = 0 ∧
    AppJs.chartStartOfMonth now ≤ now ∧
    civilFromDays (AppJs.chartStartOfMonth now / msPerDay) =
      ((civilFromDays (now / msPerDay)).1, (civilFromDays (now / msPerDay)).2.1, 1) := by
  have hz1 : 20000 ≤ now / msPerDay := by
    simp only [msPerDay] at h1 ⊢
    omega
  have hz2 : now / msPerDay < 22300 := by
    simp only [msPerDay] at h2 ⊢
    omega
  have hmr := monthRoundtrip_window (now / msPerDay) hz1 hz2
  rcases hcz : civilFromDays (now / msPerDay) with ⟨y, m, d⟩
  rw [monthRoundtrip, hcz] at hmr
  simp only [Bool.and_eq_true, decide_eq_true_eq, beq_iff_eq] at hmr
  simp only [AppJs.chartStartOfMonth, hcz]
  have hms : 0 < msPerDay := by simp [msPerDay]
  refine ⟨Nat.mul_mod_left _ _, ?_, ?_⟩
  · calc daysFromCivil y m 1 * msPerDay
        ≤ now / msPerDay * msPerDay := Nat.mul_le_mul_right _ hmr.1.1.1.1.1
      _ ≤ now := Nat.div_mul_le_self now msPerDay
  · rw [Nat.mul_div_cancel _ hms]
    exact hmr.1.1.1.1.2

/-- C7: period semantics.  For completions recorded by the system (instants
not after `now`), App.js admits a completion under `today` exactly on
[local midnight, now], under `week` exactly on [most recent Sunday
midnight, now] (the threshold is a Sunday midnight at most 6 days back),
under `month` exactly on [first-of-month midnight, now] (its civil date is
the first of the current month), and under `all` unconditionally; a
completion from before today's midnight is excluded by `today`.  Variant B,
however, computes its month threshold after `now.setDate` has already
mutated `now` to the most recent Sunday: at the failing input 2025-10-02
12:00 (a Thursday, epoch day 20363) its month window starts at 1 September
(day 20332) instead of 1 October (day 20362), so the 25 September
completion `e0Sep` is admitted under `month` even though it lies before the
first-of-current-month midnight that the claim (and App.js) prescribe. -/
theorem c7_period_semantics :
    (∀ (now ct : Nat) (t : AppJs.Task), t.completedAt = some ct → ct ≤ now →
      20000 * msPerDay ≤ now → now < 22300 * msPerDay →
      (((AppJs.filterTasks "today" now t = true) ↔ (getStartOfDate now ≤ ct ∧ ct ≤ now)) ∧
        getStartOfDate now % msPerDay = 0 ∧ getStartOfDate now ≤ now ∧
        now - getStartOfDate now < msPerDay) ∧
      (((AppJs.filterTasks "week" now t = true) ↔ (AppJs.chartStartOfWeek now ≤ ct ∧ ct ≤ now)) ∧
        AppJs.chartStartOfWeek now % msPerDay = 0 ∧
        getDay (AppJs.chartStartOfWeek now) = 0 ∧
        AppJs.chartStartOfWeek now ≤ now ∧
        now - AppJs.chartStartOfWeek now < 7 * msPerDay) ∧
      (((AppJs.filterTasks "month" now t = true) ↔ (AppJs.chartStartOfMonth now ≤ ct ∧ ct ≤ now)) ∧
        AppJs.chartStartOfMonth now % msPerDay = 0 ∧
        AppJs.chartStartOfMonth now ≤ now ∧
        civilFromDays (AppJs.chartStartOfMonth now / msPerDay) =
          ((civilFromDays (now / msPerDay)).1, (civilFromDays (now / msPerDay)).2.1, 1)) ∧
      (AppJs.filterTasks "all" now t = true) ∧
      (ct < getStartOfDate now → AppJs.filterTasks "today" now t = false)) ∧
    (VarB.filterStartDate "month" 1759406400000 = 20332 * msPerDay ∧
     civilFromDays 20332 = (2025, 9, 1) ∧
     civilFromDays (1759406400000 / msPerDay) = (2025, 10, 2) ∧
     AppJs.chartStartOfMonth 1759406400000 = 20362 * msPerDay ∧
     civilFromDays 20362 = (2025, 10, 1) ∧
     VarB.chartTaskKept "month" 1759406400000 e0Sep = true ∧
     e0Sep.completedAt < AppJs.chartStartOfMonth 1759406400000) := by
  constructor
  · intro now ct t hct hle h1 h2
    have hmonth := chartStartOfMonth_facts now h1 h2
    have htoday : AppJs.filterTasks "today" now t = decide (getStartOfDate now ≤ ct) := by
      simp [AppJs.filterTasks, hct]
    have hweek : AppJs.filterTasks "week" now t = decide (AppJs.chartStartOfWeek now ≤ ct) := by
      simp [AppJs.filterTasks, hct]
    have hmon : AppJs.filterTasks "month" now t = decide (AppJs.chartStartOfMonth now ≤ ct) := by
      simp [AppJs.filterTasks, hct]
    have hall : AppJs.filterTasks "all" now t = true := by
      simp [AppJs.filterTasks, hct]
    refine ⟨⟨?_, ?_, ?_, ?_⟩, ⟨?_, ?_, ?_, ?_, ?_⟩, ⟨?_, hmonth.1, hmonth.2.1, hmonth.2.2⟩, hall, ?_⟩
    · rw [htoday]
      simp only [decide_eq_true_eq]
      exact ⟨fun h => ⟨h, hle⟩, fun h => h.1⟩
    · simp only [getStartOfDate, msPerDay]
      omega
    · simp only [getStartOfDate, msPerDay]
      omega
    · simp only [getStartOfDate, msPerDay]
      omega
    · rw [hweek]
      simp only [decide_eq_true_eq]
      exact ⟨fun h => ⟨h, hle⟩, fun h => h.1⟩
    · simp only [AppJs.chartStartOfWeek, getStartOfDate, getDay, msPerDay] at h1 ⊢
      omega
    · simp only [AppJs.chartStartOfWeek, getStartOfDate, getDay, msPerDay] at h1 ⊢
      omega
    · simp only [AppJs.chartStartOfWeek, getStartOfDate, getDay, msPerDay] at h1 ⊢
      omega
    · simp only [AppJs.chartStartOfWeek, getStartOfDate, getDay, msPerDay] at h1 ⊢
      omega
    · rw [hmon]
      simp only [decide_eq_true_eq]
      exact ⟨fun h => ⟨h, hle⟩, fun h => h.1⟩
    · intro hbefore
      rw [htoday]
      simp only [decide_eq_false_iff_not]
      omega
  · refine ⟨by decide, by decide, by decide, by decide, by decide, by decide, by decide⟩

/-- C7 witness: the period semantics at a concrete input — at 2025-10-11
09:30 local, the completion `aDoneY` recorded the day before is excluded by
the `today` filter and included by `all`. -/
theorem c7_period_semantics_witness :
    AppJs.filterTasks "today" 1760175000000 aDoneY = false ∧
    AppJs.filterTasks "all" 1760175000000 aDoneY = true := by
  have h := c7_period_semantics.1 1760175000000 1760088600000 aDoneY rfl
    (by decide) (by decide) (by decide)
  exact ⟨h.2.2.2.2 (by decide), h.2.2.2.1⟩

/-- C8 counterexample.  The claim says that when a StatsRecord already
exists, sign-in updates its display name to the principal's current one; in
the code the exists-branch writes nothing: signing `pNew` (display name
"New Name") into an existing record holding "Old Name" leaves "Old Name"
stored. -/
theorem c8_counterexample :
    pNew.displayName ≠ oldStats.displayName ∧
    AppJs.ensureUserStats pNew (some oldStats) = oldStats ∧
    (AppJs.ensureUserStats pNew (some oldStats)).displayName = "Old Name" := by
  refine ⟨by decide, rfl, rfl⟩

/-- C8 (amended).  On the transition to signed-in, when no StatsRecord
exists one is created with the principal's display name and e-mail and both
counters at zero; when one already exists it is left entirely unchanged —
counters and stored display name alike (no display-name refresh).  The
side effect runs once per authentication callback by construction. -/
theorem c8_ensure_stats_amended :
    (∀ (p : Principal),
      AppJs.ensureUserStats p none =
        { displayName := p.displayName, email := p.email,
          tasksCompleted := 0, totalHours := 0 }) ∧
    (∀ (p : Principal) (r : AppJs.Stats), AppJs.ensureUserStats p (some r) = r) :=
  ⟨fun _ => rfl, fun _ _ => rfl⟩

/-- C9 counterexample.  The claim says every running local per-task timer is
halted on sign-out; in App.js the sign-out transition closes the four
subscriptions but does not touch `taskTimers`: the running interval of task
1 in `sessA0` survives into the no-principal state. -/
theorem c9_counterexample :
    (AppJs.signOutTransition sessA0).user = none ∧
    (AppJs.signOutTransition sessA0).subs = [] ∧
    (AppJs.signOutTransition sessA0).taskTimers 1 =
      some { hasInterval := true, elapsed := 7 } := by
  refine ⟨rfl, rfl, rfl⟩

/-- C9 (amended).  On sign-out every open store subscription is closed and
the session reaches the no-principal state in every variant; but only
variant C's `logOut` halts the running per-task timers (clearing every
interval before signing out) — App.js's sign-out transition leaves
`taskTimers`, live intervals included, exactly as they were. -/
theorem c9_signout_amended :
    (∀ (s : VarC.Session),
      (VarC.logOut s).user = none ∧
      (VarC.logOut s).subs = [] ∧
      ∀ k, (VarC.logOut s).runningTimers k = none) ∧
    (∀ (s : AppJs.Session),
      (AppJs.signOutTransition s).user = none ∧
      (AppJs.signOutTransition s).subs = [] ∧
      (AppJs.signOutTransition s).taskTimers = s.taskTimers) :=
  ⟨fun _ => ⟨rfl, rfl, fun _ => rfl⟩, fun _ => ⟨rfl, rfl, rfl⟩⟩

/-- C10: the daily penalty baseline is 5, not 0.  When today's penalty
document is absent it is created with count 5 and 5 is displayed; when it
exists its stored count is displayed; and `k` add-penalty invocations after
the absent-day creation leave the count at `5 + 5 * k`. -/
theorem c10_daily_penalty_baseline :
    AppJs.dailyPushupCount none = 5 ∧
    (∀ c, AppJs.dailyPushupCount (some c) = c) ∧
    (∀ k, AppJs.addPenaltyPushups^[k] (AppJs.dailyPushupCount none) = 5 + 5 * k) := by
  refine ⟨rfl, fun c => rfl, ?_⟩
  intro k
  induction k with
  | zero => rfl
  | succ n ih =>
    rw [Function.iterate_succ_apply', ih, AppJs.addPenaltyPushups]
    omega
